import Mathlib

/-!
# shop-it_back: a verification development of `src/index.js`

The Express/Mongoose server of `src/index.js` is embedded as pure functions on an explicit
store.  A collection is the list of its documents in insertion (natural) order, a handler is a
function from the store and the request to `Except Exn (Store × Response)`: `Except.error` is an
exception thrown out of the `async` handler (every throw in the file happens before the handler
writes, so the store is then the one the handler was given), `Except.ok` is the store after the
handler together with the response it wrote.

Conventions of the embedding:
* a request field that may be missing from the JSON body is an `Option`;
* the numbers of the program (ids, prices, quantities, dates in milliseconds) are the
  JavaScript numbers that are integers, of magnitude below `2 ^ 1024`; the one arithmetic
  operation of the file, `x + 1`, is the addition of doubles: the exact sum rounded to the
  nearest double, ties to the even mantissa (`roundDouble`);
* a cart is a plain JavaScript object: own properties under string keys, listed in the order
  in which the object enumerates them, with `Object.prototype` behind it;
* `req.body.itemId` is given as the property key it converts to (the number 5 and the string
  "5" both arrive as "5", a missing field as "undefined");
* `jsonwebtoken` with the configured secret is a parameter, `TokenService`;
* `Date.now()` is the argument `now`; the `ObjectId` a new document gets is `Store.nextOid`.
-/

namespace ShopIt

/-! ## JavaScript numbers -/

/-- Search for the spacing of the doubles around a magnitude of at least `2 ^ 53`: the power
of two `u` with `m / u < 2 ^ 53 ≤ 2 * (m / u)`; the first argument bounds the halvings. -/
def ulpAux : Nat → Nat → Nat
  | 0, _ => 1
  | fuel + 1, m => if m < 2 ^ 53 then 1 else 2 * ulpAux fuel (m / 2)

/-- The spacing of the doubles around the magnitude `m`, when `m` is at least `2 ^ 53`. -/
def ulp (m : Nat) : Nat := ulpAux m m

/-- The double nearest to an integer, ties going to the even mantissa: integers of magnitude
up to `2 ^ 53` are doubles, a larger one lies between two neighbouring multiples of the
spacing. -/
def roundDouble (n : Int) : Int :=
  if n.natAbs ≤ 2 ^ 53 then n
  else
    let u : Int := ulp n.natAbs
    let q := n / u
    let r := n % u
    if 2 * r < u then q * u
    else if u < 2 * r then (q + 1) * u
    else if q % 2 = 0 then q * u else (q + 1) * u

/-- The expression `x + 1` on a number. -/
def addOne (x : Int) : Int := roundDouble (x + 1)

/-! ## Data model (the two Mongoose schemas) -/

/-- Document of the `Product` model (lines 52-61); `date` in milliseconds. -/
structure Product where
  id : Int
  name : String
  image : String
  category : String
  new_price : Int
  old_price : Int
  date : Int
  available : Bool
deriving DecidableEq, Repr

/-- A value held by a stored cart: a quantity, or a string. -/
inductive Stored where
  | num (n : Nat)
  | str (s : String)
deriving DecidableEq, Repr

/-- A plain JavaScript object: its own properties, in enumeration order. -/
abbrev CartData := List (String × Stored)

/-- Document of the `User` model (lines 64-70); `id` is the string form of the storage key. -/
structure User where
  id : Nat
  name : String
  email : String
  password : String
  cartData : CartData
  date : Nat
deriving DecidableEq, Repr

/-- The two collections, and the key the next created document receives. -/
structure Store where
  products : List Product
  users : List User
  nextOid : Nat
deriving DecidableEq, Repr

/-- The `user` claim carried by a token: `{ id }`. -/
structure Identity where
  id : Nat
deriving DecidableEq, Repr

/-- The calls made to `jsonwebtoken` with `process.env.JWT_SECRET`: `sign user now` is
`jwt.sign({ user }, secret, { expiresIn: "1h" })` at time `now`; `verify token now` is
`jwt.verify(token, secret)` at time `now`, `none` when it throws, else the `user` claim. -/
structure TokenService where
  sign : Identity → Nat → String
  verify : String → Nat → Option Identity

/-! ## Requests, responses, exceptions -/

/-- Body of `POST /addproduct`: the fields of the schema the body may carry. -/
structure ProductBody where
  id : Option Int
  name : Option String
  image : Option String
  category : Option String
  new_price : Option Int
  old_price : Option Int
  date : Option Int
  available : Option Bool
deriving DecidableEq, Repr

/-- Body of `POST /signup`. -/
structure SignupBody where
  username : Option String
  email : Option String
  password : Option String
deriving DecidableEq, Repr

/-- Body of `POST /login`. -/
structure LoginBody where
  email : Option String
  password : Option String
deriving DecidableEq, Repr

/-- The bodies the handlers write. -/
inductive Body where
  /-- Plain text, written by `res.send` with a string. -/
  | text (s : String)
  /-- The object `{ error }`. -/
  | error (msg : String)
  /-- The object `{ success: false, error }`. -/
  | failure (msg : String)
  /-- The object `{ success: true, token }`. -/
  | token (t : String)
  /-- The object `{ success: true, name }`. -/
  | named (name : Option String)
  /-- The object `{ success: true }`. -/
  | success
  /-- An array of products. -/
  | products (ps : List Product)
deriving DecidableEq, Repr

/-- A written response: HTTP status and body. -/
structure Response where
  status : Nat
  body : Body
deriving DecidableEq, Repr

/-- What a handler can throw. -/
inductive Exn where
  /-- Mongoose `ValidationError` raised by `save()`: the set of the paths that failed. -/
  | validationError (paths : Finset String)
  /-- JavaScript `TypeError`. -/
  | typeError (msg : String)
deriving DecidableEq

deriving instance DecidableEq for Except

/-- Result of a handler. -/
abbrev Outcome := Except Exn (Store × Response)

/-! ## Plain objects -/

/-- The value of a decimal digit. -/
def digitValue (c : Char) : Option Nat :=
  if '0' ≤ c ∧ c ≤ '9' then some (c.toNat - 48) else none

/-- The number written by a list of decimal digits, after the digits already read. -/
def parseDigits : List Char → Nat → Option Nat
  | [], acc => some acc
  | c :: t, acc =>
    match digitValue c with
    | some d => parseDigits t (10 * acc + d)
    | none => none

/-- The array index a property key stands for: the key is the decimal writing, without
leading zero, of an integer below `2 ^ 32 - 1`.  Such keys are enumerated first, in ascending
order; the other keys follow in the order of their creation. -/
def arrayIndex? (k : String) : Option Nat :=
  match k.data with
  | [] => none
  | ['0'] => some 0
  | '0' :: _ => none
  | cs =>
    match parseDigits cs 0 with
    | some n => if n < 2 ^ 32 - 1 then some n else none
    | none => none

/-- Own property `k` of the object: `none` when the object has no such property. -/
def CartData.get : CartData → String → Option Stored
  | [], _ => none
  | (k', v) :: t, k => if k' = k then some v else CartData.get t k

/-- The value of an existing own property is replaced, in place. -/
def CartData.overwrite : CartData → String → Stored → CartData
  | [], _, _ => []
  | (k', v') :: t, k, v => if k' = k then (k, v) :: t else (k', v') :: CartData.overwrite t k v

/-- A new array index `n`, written `k`, takes its place among the array indices. -/
def CartData.insertIndex : CartData → Nat → String → Stored → CartData
  | [], _, k, v => [(k, v)]
  | (k', v') :: t, n, k, v =>
    match arrayIndex? k' with
    | some m => if m < n then (k', v') :: CartData.insertIndex t n k v else (k, v) :: (k', v') :: t
    | none => (k, v) :: (k', v') :: t

/-- Define or overwrite the own property `k`. -/
def CartData.set (c : CartData) (k : String) (v : Stored) : CartData :=
  match CartData.get c k with
  | some _ => CartData.overwrite c k v
  | none =>
    match arrayIndex? k with
    | some n => CartData.insertIndex c n k v
    | none => c ++ [(k, v)]

/-- The functions that a plain object inherits from `Object.prototype`, by property name. -/
def prototypeFunctions : List String :=
  ["constructor", "__defineGetter__", "__defineSetter__", "hasOwnProperty",
   "__lookupGetter__", "__lookupSetter__", "isPrototypeOf", "propertyIsEnumerable",
   "toString", "valueOf", "toLocaleString"]

/-- The names under which a plain object finds a member of `Object.prototype`. -/
def prototypeMembers : List String := "__proto__" :: prototypeFunctions

/-- What the expression `cart[k]` can evaluate to. -/
inductive JsValue where
  | undefined
  | stored (v : Stored)
  /-- A built-in function, by its name. -/
  | native (name : String)
  /-- The object `Object.prototype`, read under `__proto__`. -/
  | objectPrototype
deriving DecidableEq, Repr

/-- The expression `cart[k]`: the own property, else the inherited member, else `undefined`. -/
def CartData.read (c : CartData) (k : String) : JsValue :=
  match CartData.get c k with
  | some v => .stored v
  | none =>
    if k = "__proto__" then .objectPrototype
    else if k = "constructor" then .native "Object"
    else if k ∈ prototypeFunctions then .native k
    else .undefined

/-- The expression `(x || 0) + 1`: `undefined`, `0` and the empty string are falsy and give
`0 + 1`; a number is added to; a string, a function and an object are truthy and `+`
concatenates their string form with "1". -/
def orZeroPlusOne : JsValue → Stored
  | .undefined => .num (addOne 0).toNat
  | .stored (.num q) => if q = 0 then .num (addOne 0).toNat else .num (addOne q).toNat
  | .stored (.str s) => if s = "" then .num (addOne 0).toNat else .str (s ++ "1")
  | .native name => .str ("function " ++ name ++ "() \x7b [native code] \x7d" ++ "1")
  | .objectPrototype => .str ("[object Object]" ++ "1")

/-- The assignment `cart[k] = v` of a number or a string: under `__proto__`, when the object
has no own property of that name, the inherited setter ignores the value; otherwise the own
property is defined or overwritten. -/
def CartData.assign (c : CartData) (k : String) (v : Stored) : CartData :=
  if k = "__proto__" ∧ CartData.get c k = none then c else CartData.set c k v

/-! ## Mongoose: validation, queries -/

/-- The `required: true` validator of a `String` path: present and not empty. -/
def requiredString : Option String → Bool
  | none => false
  | some s => s ≠ ""

/-- The `required: true` validator of a `Number` path: present. -/
def requiredNumber : Option Int → Bool
  | none => false
  | some _ => true

/-- The cast of a number of milliseconds to a `Date`: it fails beyond the range of dates,
8.64e15 milliseconds on either side of the epoch; a missing value takes the default. -/
def castDate : Option Int → Bool
  | none => true
  | some d => d.natAbs ≤ 8640000000000000

/-- The path, when its validator or its cast failed. -/
def failed (path : String) (valid : Bool) : Finset String :=
  if valid then ∅ else {path}

/-- The paths of `new Product({ id, ...req.body })` on which validation fails. -/
def productErrors (body : ProductBody) : Finset String :=
  failed "name" (requiredString body.name) ∪ failed "image" (requiredString body.image)
    ∪ failed "category" (requiredString body.category)
    ∪ failed "new_price" (requiredNumber body.new_price)
    ∪ failed "old_price" (requiredNumber body.old_price)
    ∪ failed "date" (castDate body.date)

/-- The paths of `new User({ name: username, email, password, cartData })` on which
validation fails. -/
def userErrors (body : SignupBody) : Finset String :=
  failed "name" (requiredString body.username) ∪ failed "email" (requiredString body.email)
    ∪ failed "password" (requiredString body.password)

/-- The object literal `{ id, ...req.body }` read at `id`: a later `id` of the body wins. -/
def spreadId (id : Int) (body : ProductBody) : Int :=
  match body.id with
  | some i => i
  | none => id

/-- Validation run by `product.save()` on `new Product({ id, ...req.body })`, followed by the
document that is stored; the defaults `Date.now` and `true` fill `date` and `available`. -/
def newProduct (id : Int) (body : ProductBody) (now : Nat) : Except Exn Product :=
  match body.name, body.image, body.category, body.new_price, body.old_price with
  | some name, some image, some category, some new_price, some old_price =>
    if productErrors body = ∅ then
      .ok { id := spreadId id body, name := name, image := image, category := category,
            new_price := new_price, old_price := old_price,
            date := body.date.getD now, available := body.available.getD true }
    else .error (.validationError (productErrors body))
  | _, _, _, _, _ => .error (.validationError (productErrors body))

/-- Validation run by `user.save()` on `new User({ name: username, email, password, cartData })`,
followed by the document that is stored. -/
def newUser (oid : Nat) (body : SignupBody) (cart : CartData) (now : Nat) : Except Exn User :=
  match body.username, body.email, body.password with
  | some name, some email, some password =>
    if userErrors body = ∅ then
      .ok { id := oid, name := name, email := email, password := password,
            cartData := cart, date := now }
    else .error (.validationError (userErrors body))
  | _, _, _ => .error (.validationError (userErrors body))

/-- The query `.sort({ key: -1 })`: the documents by descending key. -/
def sortDesc {α : Type} [LinearOrder α] (key : Product → α) (l : List Product) : List Product :=
  l.insertionSort (fun a b => key b ≤ key a)

/-- The query `User.findOne({ email })`: the first user whose email is the given value; a
missing value matches no stored user, every stored email being a string. -/
def findOneByEmail (users : List User) (email : Option String) : Option User :=
  users.find? (fun u => decide (some u.email = email))

/-- The query `User.findById(id)`. -/
def findById (users : List User) (id : Nat) : Option User :=
  users.find? (fun u => decide (u.id = id))

/-- The update `User.findByIdAndUpdate(id, { cartData })`: the first user with that key gets
the new cart. -/
def findByIdAndUpdate : List User → Nat → CartData → List User
  | [], _, _ => []
  | u :: t, id, cart =>
    if u.id = id then { u with cartData := cart } :: t else u :: findByIdAndUpdate t id cart

/-- The query `Product.findOneAndDelete({ id })`: the first product with that id is removed; a
missing value matches no stored product, every stored id being a number. -/
def findOneAndDelete (products : List Product) (id : Option Int) : List Product :=
  products.eraseP (fun p => decide (some p.id = id))

/-! ## The handlers -/

/-- The guard `fetchUser` either calls `next()` with `req.user` set, or writes a response. -/
inductive Guard where
  | next (user : Identity)
  | respond (r : Response)
deriving DecidableEq, Repr

/-- The test `!token` on the value of `req.header("auth-token")`: a missing header and an
empty one are falsy. -/
def noToken : Option String → Bool
  | none => true
  | some t => t = ""

/-- The middleware `fetchUser` (lines 73-84). -/
def fetchUser (ts : TokenService) (header : Option String) (now : Nat) : Guard :=
  match header with
  | none => .respond ⟨401, .error "Access Denied"⟩
  | some token =>
    if noToken (some token) then .respond ⟨401, .error "Access Denied"⟩
    else
      match ts.verify token now with
      | some user => .next user
      | none => .respond ⟨401, .error "Invalid Token"⟩

/-- The loop `for (let i = 0; i < 300; i++) cart[i] = 0` on `cart = {}` (lines 94-95); the
key of the number `i` is its decimal writing. -/
def initialCart : CartData :=
  (List.range 300).foldl (fun cart i => CartData.assign cart (toString i) (.num 0)) []

/-- The handler of `POST /signup` (lines 87-102). -/
def signup (ts : TokenService) (st : Store) (body : SignupBody) (now : Nat) : Outcome :=
  match findOneByEmail st.users body.email with
  | some _ => .ok (st, ⟨400, .failure "User already exists"⟩)
  | none => do
    let cart := initialCart
    let user ← newUser st.nextOid body cart now
    let st' := { st with users := st.users ++ [user], nextOid := st.nextOid + 1 }
    let token := ts.sign ⟨user.id⟩ now
    pure (st', ⟨200, .token token⟩)

/-- The handler of `POST /login` (lines 105-114). -/
def login (ts : TokenService) (st : Store) (body : LoginBody) (now : Nat) : Outcome :=
  match findOneByEmail st.users body.email with
  | none => .ok (st, ⟨400, .failure "Invalid Credentials"⟩)
  | some user =>
    if body.password ≠ some user.password then
      .ok (st, ⟨400, .failure "Invalid Credentials"⟩)
    else
      .ok (st, ⟨200, .token (ts.sign ⟨user.id⟩ now)⟩)

/-- The handler of `GET /newCollections` (lines 117-120). -/
def newCollections (st : Store) : Outcome :=
  .ok (st, ⟨200, .products ((sortDesc (fun p => p.date) st.products).take 8)⟩)

/-- The handler of `POST /addToCart` behind the guard (lines 124-128), run with `req.user`. -/
def addToCart (st : Store) (user : Identity) (itemId : String) : Outcome :=
  match findById st.users user.id with
  | none => .error (.typeError "Cannot read properties of null (reading 'cartData')")
  | some u =>
    let cartData :=
      CartData.assign u.cartData itemId (orZeroPlusOne (CartData.read u.cartData itemId))
    .ok ({ st with users := findByIdAndUpdate st.users user.id cartData },
         ⟨200, .text "Added to cart"⟩)

/-- The route `app.post("/addToCart", fetchUser, handler)` (line 123). -/
def addToCartRoute (ts : TokenService) (st : Store) (header : Option String) (itemId : String)
    (now : Nat) : Outcome :=
  match fetchUser ts header now with
  | .respond r => .ok (st, r)
  | .next user => addToCart st user itemId

/-- The query `Product.findOne().sort({ id: -1 })` (line 133). -/
def lastProduct (products : List Product) : Option Product :=
  (sortDesc (fun p => p.id) products).head?

/-- The id computed on line 134. -/
def nextProductId (products : List Product) : Int :=
  match lastProduct products with
  | some p => addOne p.id
  | none => 1

/-- The handler of `POST /addproduct` (lines 132-140). -/
def addproduct (st : Store) (body : ProductBody) (now : Nat) : Outcome := do
  let id := nextProductId st.products
  let product ← newProduct id body now
  let st' := { st with products := st.products ++ [product] }
  pure (st', ⟨200, .named body.name⟩)

/-- The handler of `POST /removeproduct` (lines 149-152). -/
def removeproduct (st : Store) (id : Option Int) : Outcome :=
  .ok ({ st with products := findOneAndDelete st.products id }, ⟨200, .success⟩)

/-- The request `POST /addToCart` with one header and one item, sent `n` times one after the
other; the store after the last response, or the first exception. -/
def addToCartTimes (ts : TokenService) (header : Option String) (itemId : String) (now : Nat) :
    Nat → Store → Except Exn Store
  | 0, st => .ok st
  | n + 1, st =>
    match addToCartRoute ts st header itemId now with
    | .ok (st', _) => addToCartTimes ts header itemId now n st'
    | .error e => .error e

/-- A request to the catalog: `POST /addproduct` or `POST /removeproduct`. -/
inductive CatalogRequest where
  | addproduct (body : ProductBody) (now : Nat)
  | removeproduct (id : Option Int)
deriving DecidableEq, Repr

/-- The store after one catalog request; a handler that throws has stored nothing. -/
def CatalogRequest.run (st : Store) : CatalogRequest → Store
  | .addproduct body now =>
    match ShopIt.addproduct st body now with
    | .ok (st', _) => st'
    | .error _ => st
  | .removeproduct id =>
    match ShopIt.removeproduct st id with
    | .ok (st', _) => st'
    | .error _ => st

/-- The store after a series of catalog requests handled one after the other. -/
def runCatalog (st : Store) (reqs : List CatalogRequest) : Store :=
  reqs.foldl CatalogRequest.run st

/-- The value held under a key is the quantity `q`, a missing key counting for 0. -/
def holds (c : CartData) (k : String) (q : Nat) : Prop :=
  CartData.get c k = some (.num q) ∨ (CartData.get c k = none ∧ q = 0)

/-! ## A token service to evaluate the handlers on concrete requests -/

/-- A toy token service: the token of identity `n` is the string of `n + 1` letters, whatever
the time; the empty string does not verify. -/
def demoTokens : TokenService where
  sign := fun user _ => String.mk (List.replicate (user.id + 1) 'x')
  verify := fun token _ => if token.length = 0 then none else some ⟨token.length - 1⟩

/-! ## Lemmas on numbers -/

theorem roundDouble_of_small (n : Int) (h : n.natAbs ≤ 2 ^ 53) : roundDouble n = n := by
  unfold roundDouble
  rw [if_pos h]

theorem addOne_of_small (x : Int) (h : x.natAbs < 2 ^ 53) : addOne x = x + 1 := by
  apply roundDouble_of_small
  omega

theorem addOne_zero : (addOne 0).toNat = 1 := rfl

theorem addOne_nat (q : Nat) (h : q < 2 ^ 53) : (addOne (q : Int)).toNat = q + 1 := by
  rw [addOne_of_small _ (by omega)]
  omega

/-! ## Lemmas on carts -/

theorem failed_eq_empty (path : String) (valid : Bool) : failed path valid = ∅ ↔ valid = true := by
  cases valid <;> simp [failed]

theorem CartData.get_overwrite_self (c : CartData) (k : String) (v : Stored)
    (h : CartData.get c k ≠ none) : CartData.get (CartData.overwrite c k v) k = some v := by
  induction c with
  | nil => simp [CartData.get] at h
  | cons e t ih =>
    obtain ⟨k', v'⟩ := e
    by_cases hk : k' = k
    · simp [CartData.overwrite, CartData.get, hk]
    · have ht : CartData.get t k ≠ none := by simpa [CartData.get, hk] using h
      simp [CartData.overwrite, CartData.get, hk, ih ht]

theorem CartData.get_overwrite_of_ne (c : CartData) (k j : String) (v : Stored) (hj : j ≠ k) :
    CartData.get (CartData.overwrite c k v) j = CartData.get c j := by
  induction c with
  | nil => rfl
  | cons e t ih =>
    obtain ⟨k', v'⟩ := e
    by_cases hk : k' = k
    · subst hk
      simp [CartData.overwrite, CartData.get, Ne.symm hj]
    · by_cases hk' : k' = j
      · subst hk'
        simp [CartData.overwrite, CartData.get, hk]
      · simp [CartData.overwrite, CartData.get, hk, hk', ih]

theorem CartData.get_insertIndex_self (c : CartData) (n : Nat) (k : String) (v : Stored)
    (h : CartData.get c k = none) : CartData.get (CartData.insertIndex c n k v) k = some v := by
  induction c with
  | nil => simp [CartData.insertIndex, CartData.get]
  | cons e t ih =>
    obtain ⟨k', v'⟩ := e
    have hk : k' ≠ k := by
      intro hk
      simp [CartData.get, hk] at h
    have ht : CartData.get t k = none := by simpa [CartData.get, hk] using h
    unfold CartData.insertIndex
    split
    · split
      · simp [CartData.get, hk, ih ht]
      · simp [CartData.get]
    · simp [CartData.get]

theorem CartData.get_insertIndex_of_ne (c : CartData) (n : Nat) (k j : String) (v : Stored)
    (hj : j ≠ k) : CartData.get (CartData.insertIndex c n k v) j = CartData.get c j := by
  induction c with
  | nil => simp [CartData.insertIndex, CartData.get, Ne.symm hj]
  | cons e t ih =>
    obtain ⟨k', v'⟩ := e
    unfold CartData.insertIndex
    split
    · split
      · by_cases hk' : k' = j
        · simp [CartData.get, hk']
        · simp [CartData.get, hk', ih]
      · simp [CartData.get, Ne.symm hj]
    · simp [CartData.get, Ne.symm hj]

theorem CartData.get_append_fresh (c : CartData) (k j : String) (v : Stored) :
    CartData.get (c ++ [(k, v)]) j
      = match CartData.get c j with
        | some w => some w
        | none => if k = j then some v else none := by
  induction c with
  | nil => simp [CartData.get]
  | cons e t ih =>
    obtain ⟨k', v'⟩ := e
    by_cases hk' : k' = j
    · simp [CartData.get, hk']
    · simp [CartData.get, hk', ih]

theorem CartData.get_set_self (c : CartData) (k : String) (v : Stored) :
    CartData.get (CartData.set c k v) k = some v := by
  unfold CartData.set
  split
  · rename_i w hw
    exact CartData.get_overwrite_self c k v (by rw [hw]; simp)
  · rename_i hnone
    split
    · exact CartData.get_insertIndex_self c _ k v hnone
    · rw [CartData.get_append_fresh, hnone]
      simp

theorem CartData.get_set_of_ne (c : CartData) (k j : String) (v : Stored) (hj : j ≠ k) :
    CartData.get (CartData.set c k v) j = CartData.get c j := by
  unfold CartData.set
  split
  · exact CartData.get_overwrite_of_ne c k j v hj
  · split
    · exact CartData.get_insertIndex_of_ne c _ k j v hj
    · rw [CartData.get_append_fresh]
      cases CartData.get c j with
      | some w => rfl
      | none => simp [Ne.symm hj]

theorem CartData.mem_overwrite_self (c : CartData) (k : String) (v : Stored)
    (h : CartData.get c k ≠ none) : (k, v) ∈ CartData.overwrite c k v := by
  induction c with
  | nil => simp [CartData.get] at h
  | cons e t ih =>
    obtain ⟨k', v'⟩ := e
    by_cases hk : k' = k
    · simp [CartData.overwrite, hk]
    · have ht : CartData.get t k ≠ none := by simpa [CartData.get, hk] using h
      simp [CartData.overwrite, hk, ih ht]

theorem CartData.mem_overwrite_of_ne (c : CartData) (k : String) (v : Stored)
    (e : String × Stored) (he : e.1 ≠ k) : e ∈ CartData.overwrite c k v ↔ e ∈ c := by
  induction c with
  | nil => simp [CartData.overwrite]
  | cons a t ih =>
    obtain ⟨k', v'⟩ := a
    by_cases hk : k' = k
    · subst hk
      have h1 : e ≠ (k', v) := fun h => he (by rw [h])
      have h2 : e ≠ (k', v') := fun h => he (by rw [h])
      simp [CartData.overwrite, h1, h2]
    · simp [CartData.overwrite, hk, ih]

theorem CartData.mem_insertIndex (c : CartData) (n : Nat) (k : String) (v : Stored)
    (e : String × Stored) : e ∈ CartData.insertIndex c n k v ↔ e = (k, v) ∨ e ∈ c := by
  induction c with
  | nil => simp [CartData.insertIndex]
  | cons a t ih =>
    obtain ⟨k', v'⟩ := a
    unfold CartData.insertIndex
    split
    · split
      · simp only [List.mem_cons, ih]
        tauto
      · simp
    · simp

theorem CartData.mem_set_self (c : CartData) (k : String) (v : Stored) :
    (k, v) ∈ CartData.set c k v := by
  unfold CartData.set
  split
  · rename_i w hw
    exact CartData.mem_overwrite_self c k v (by rw [hw]; simp)
  · split
    · exact (CartData.mem_insertIndex c _ k v _).2 (Or.inl rfl)
    · simp

theorem CartData.mem_set_of_ne (c : CartData) (k : String) (v : Stored)
    (e : String × Stored) (he : e.1 ≠ k) : e ∈ CartData.set c k v ↔ e ∈ c := by
  have h1 : e ≠ (k, v) := fun h => he (by rw [h])
  unfold CartData.set
  split
  · exact CartData.mem_overwrite_of_ne c k v e he
  · split
    · rw [CartData.mem_insertIndex]
      simp [h1]
    · simp [h1]

theorem CartData.insertIndex_append (c : CartData) (n : Nat) (k : String) (v : Stored)
    (h : ∀ e ∈ c, ∃ m, arrayIndex? e.1 = some m ∧ m < n) :
    CartData.insertIndex c n k v = c ++ [(k, v)] := by
  induction c with
  | nil => rfl
  | cons e t ih =>
    obtain ⟨k', v'⟩ := e
    obtain ⟨m, hm, hlt⟩ := h (k', v') (List.mem_cons_self _ _)
    have ht := ih (fun e he => h e (List.mem_cons_of_mem _ he))
    simp only [CartData.insertIndex] at hm ⊢
    rw [hm]
    simp [hlt, ht]

theorem CartData.get_map_const {α : Type} (l : List α) (f : α → String) (v : Stored)
    (k : String) :
    CartData.get (l.map (fun i => (f i, v))) k = if k ∈ l.map f then some v else none := by
  induction l with
  | nil => simp [CartData.get]
  | cons a t ih =>
    by_cases h : f a = k
    · simp [CartData.get, h]
    · have h' : ¬ k = f a := fun e => h e.symm
      simp only [List.map_cons, CartData.get, h, if_false, ih, List.mem_cons, h', false_or]

set_option maxRecDepth 100000 in
theorem arrayIndex_toString : ∀ i < 300, arrayIndex? (toString i) = some i := by
  decide

theorem toString_ne_proto (i : Nat) (h : i < 300) : toString i ≠ "__proto__" := by
  intro he
  have h1 := arrayIndex_toString i h
  rw [he] at h1
  have h2 : arrayIndex? "__proto__" = none := by decide
  rw [h2] at h1
  cases h1

theorem foldl_assign_range (n : Nat) (hn : n ≤ 300) :
    (List.range n).foldl (fun cart i => CartData.assign cart (toString i) (.num 0)) []
      = (List.range n).map (fun i => (toString i, Stored.num 0)) := by
  induction n with
  | zero => rfl
  | succ n ih =>
    have hlt : n < 300 := by omega
    rw [List.range_succ, List.foldl_append, List.map_append, ih (by omega)]
    simp only [List.foldl_cons, List.foldl_nil, List.map_cons, List.map_nil]
    have hfresh : CartData.get ((List.range n).map (fun i => (toString i, Stored.num 0)))
        (toString n) = none := by
      rw [CartData.get_map_const, if_neg]
      intro hmem
      obtain ⟨i, hi, he⟩ := List.mem_map.1 hmem
      have h1 := arrayIndex_toString i (by have := List.mem_range.1 hi; omega)
      have h2 := arrayIndex_toString n hlt
      rw [he, h2] at h1
      have := List.mem_range.1 hi
      simp only [Option.some.injEq] at h1
      omega
    unfold CartData.assign
    rw [if_neg (fun h => toString_ne_proto n hlt h.1)]
    unfold CartData.set
    rw [hfresh]
    simp only [arrayIndex_toString n hlt]
    apply CartData.insertIndex_append
    intro e he
    obtain ⟨i, hi, rfl⟩ := List.mem_map.1 he
    have hi' := List.mem_range.1 hi
    exact ⟨i, arrayIndex_toString i (by omega), hi'⟩

theorem initialCart_eq :
    initialCart = (List.range 300).map (fun i => (toString i, Stored.num 0)) :=
  foldl_assign_range 300 (le_refl _)

theorem initialCart_spec :
    initialCart.length = 300
    ∧ initialCart.map Prod.fst = (List.range 300).map (fun i => toString i)
    ∧ (∀ e ∈ initialCart, e.2 = .num 0)
    ∧ (∀ k, CartData.get initialCart k
        = if k ∈ (List.range 300).map (fun i => toString i) then some (.num 0) else none) := by
  rw [initialCart_eq]
  generalize 300 = n
  refine ⟨?_, ?_, ?_, ?_⟩
  · rw [List.length_map, List.length_range]
  · rw [List.map_map]
    rfl
  · intro x hx
    simp only [List.mem_map] at hx
    obtain ⟨i, -, rfl⟩ := hx
    rfl
  · intro k
    exact CartData.get_map_const _ _ _ k

/-! ## Lemmas on the user queries and on `signup` -/

theorem findOneByEmail_eq_none (users : List User) (email : Option String) :
    findOneByEmail users email = none ↔ ∀ u ∈ users, some u.email ≠ email := by
  simp [findOneByEmail, List.find?_eq_none]

theorem findOneByEmail_eq_some (users : List User) (email : Option String) (u : User) :
    findOneByEmail users email = some u ↔
      ∃ l₁ l₂, users = l₁ ++ u :: l₂ ∧ (∀ v ∈ l₁, some v.email ≠ email)
        ∧ some u.email = email := by
  unfold findOneByEmail
  rw [List.find?_eq_some]
  constructor
  · rintro ⟨hu, l₁, l₂, hl, hne⟩
    exact ⟨l₁, l₂, hl, fun v hv => by simpa using hne v hv, by simpa using hu⟩
  · rintro ⟨l₁, l₂, hl, hne, hu⟩
    exact ⟨by simpa using hu, l₁, l₂, hl, fun v hv => by simpa using hne v hv⟩

theorem signup_of_found (ts : TokenService) (st : Store) (body : SignupBody) (now : Nat)
    (u : User) (h : findOneByEmail st.users body.email = some u) :
    signup ts st body now = .ok (st, ⟨400, .failure "User already exists"⟩) := by
  simp [signup, h]

theorem signup_of_fresh (ts : TokenService) (st : Store) (body : SignupBody) (now : Nat)
    (h : findOneByEmail st.users body.email = none) :
    signup ts st body now =
      (newUser st.nextOid body initialCart now).map (fun user =>
        ({ st with users := st.users ++ [user], nextOid := st.nextOid + 1 },
          ⟨200, .token (ts.sign ⟨user.id⟩ now)⟩)) := by
  simp only [signup, h]
  cases newUser st.nextOid body initialCart now <;> rfl

theorem userErrors_eq_empty (body : SignupBody) :
    userErrors body = ∅ ↔
      (requiredString body.username = true ∧ requiredString body.email = true
        ∧ requiredString body.password = true) := by
  simp [userErrors, Finset.union_eq_empty, failed_eq_empty, and_assoc]

theorem newUser_ok_iff (oid : Nat) (body : SignupBody) (cart : CartData) (now : Nat) (u : User) :
    newUser oid body cart now = .ok u ↔
      (requiredString body.username = true ∧ requiredString body.email = true
        ∧ requiredString body.password = true)
      ∧ u.id = oid ∧ some u.name = body.username ∧ some u.email = body.email
      ∧ some u.password = body.password ∧ u.cartData = cart ∧ u.date = now := by
  rw [← userErrors_eq_empty]
  unfold newUser
  split
  · rename_i n e p hn he hp
    by_cases hv : userErrors body = ∅
    · rw [if_pos hv, hn, he, hp]
      obtain ⟨i, n', e', p', c, d⟩ := u
      simp only [Except.ok.injEq, User.mk.injEq, Option.some.injEq]
      constructor
      · rintro ⟨rfl, rfl, rfl, rfl, rfl, rfl⟩
        exact ⟨hv, rfl, rfl, rfl, rfl, rfl, rfl⟩
      · rintro ⟨-, rfl, rfl, rfl, rfl, rfl, rfl⟩
        exact ⟨rfl, rfl, rfl, rfl, rfl, rfl⟩
    · rw [if_neg hv]
      constructor
      · intro h
        cases h
      · rintro ⟨h, -⟩
        exact absurd h hv
  · rename_i hnone
    constructor
    · intro h
      cases h
    · rintro ⟨h, -⟩
      exfalso
      obtain ⟨h1, h2, h3⟩ := (userErrors_eq_empty body).1 h
      cases hn : body.username with
      | none => simp [hn, requiredString] at h1
      | some n =>
        cases he : body.email with
        | none => simp [he, requiredString] at h2
        | some e =>
          cases hp : body.password with
          | none => simp [hp, requiredString] at h3
          | some p => exact hnone n e p hn he hp

theorem newUser_ok_of_valid (oid : Nat) (body : SignupBody) (cart : CartData) (now : Nat)
    (h : requiredString body.username = true ∧ requiredString body.email = true
        ∧ requiredString body.password = true) :
    ∃ u, newUser oid body cart now = .ok u := by
  have hv := (userErrors_eq_empty body).2 h
  obtain ⟨h1, h2, h3⟩ := h
  unfold newUser
  split
  · rw [if_pos hv]
    exact ⟨_, rfl⟩
  · rename_i hnone
    exfalso
    cases hn : body.username with
    | none => simp [hn, requiredString] at h1
    | some n =>
      cases he : body.email with
      | none => simp [he, requiredString] at h2
      | some e =>
        cases hp : body.password with
        | none => simp [hp, requiredString] at h3
        | some p => exact hnone n e p hn he hp

theorem newUser_error (oid : Nat) (body : SignupBody) (cart : CartData) (now : Nat)
    (h : ¬ (requiredString body.username = true ∧ requiredString body.email = true
        ∧ requiredString body.password = true)) :
    newUser oid body cart now = .error (.validationError (userErrors body)) := by
  rw [← userErrors_eq_empty] at h
  unfold newUser
  split
  · rw [if_neg h]
  · rfl

theorem signup_ok_inv (ts : TokenService) (st st' : Store) (body : SignupBody) (now : Nat)
    (r : Response) (h : signup ts st body now = .ok (st', r)) (hr : r.status = 200) :
    ∃ u : User, st' = { st with users := st.users ++ [u], nextOid := st.nextOid + 1 }
      ∧ r = ⟨200, .token (ts.sign ⟨u.id⟩ now)⟩
      ∧ newUser st.nextOid body initialCart now = .ok u
      ∧ ∀ v ∈ st.users, some v.email ≠ body.email := by
  cases hf : findOneByEmail st.users body.email with
  | some v =>
    rw [signup_of_found ts st body now v hf] at h
    cases h
    simp at hr
  | none =>
    rw [signup_of_fresh ts st body now hf] at h
    cases hn : newUser st.nextOid body initialCart now with
    | error e =>
      rw [hn] at h
      cases h
    | ok u =>
      rw [hn] at h
      cases h
      exact ⟨u, rfl, rfl, rfl, (findOneByEmail_eq_none _ _).1 hf⟩

/-! ## The claims on accounts -/

/-- C2: every signup that succeeds (answer 200) was sent with an email that no stored user
has and stores exactly one new user, with that email, whose `cartData` has exactly 300
entries, with the keys 0..299 in order and no other key, every quantity being 0; and a signup
with an email not yet stored and the three required fields valid does succeed. -/
theorem signup_cart_initialised (ts : TokenService) (st : Store) (body : SignupBody) (now : Nat) :
    (∀ (st' : Store) (r : Response), signup ts st body now = .ok (st', r) → r.status = 200 →
        (∀ v ∈ st.users, some v.email ≠ body.email)
        ∧ ∃ u : User, st' = ⟨st.products, st.users ++ [u], st.nextOid + 1⟩
          ∧ r = ⟨200, .token (ts.sign ⟨u.id⟩ now)⟩
          ∧ some u.email = body.email
          ∧ u.cartData.length = 300
          ∧ u.cartData.map Prod.fst = (List.range 300).map (fun i => toString i)
          ∧ (∀ e ∈ u.cartData, e.2 = .num 0)
          ∧ (∀ k, CartData.get u.cartData k
              = if k ∈ (List.range 300).map (fun i => toString i) then some (.num 0) else none))
    ∧ ((∀ v ∈ st.users, some v.email ≠ body.email) →
        requiredString body.username = true ∧ requiredString body.email = true
          ∧ requiredString body.password = true →
        ∃ st' t, signup ts st body now = .ok (st', ⟨200, .token t⟩)) := by
  constructor
  · intro st' r h hr
    obtain ⟨u, hst, hresp, hu, hnew⟩ := signup_ok_inv ts st st' body now r h hr
    obtain ⟨-, -, -, he, -, hc, -⟩ := (newUser_ok_iff _ _ _ _ _).1 hu
    refine ⟨hnew, u, hst, hresp, he, ?_⟩
    rw [hc]
    exact initialCart_spec
  · intro hnew hvalid
    have hf := (findOneByEmail_eq_none st.users body.email).2 hnew
    obtain ⟨u, hu⟩ := newUser_ok_of_valid st.nextOid body initialCart now hvalid
    refine ⟨⟨st.products, st.users ++ [u], st.nextOid + 1⟩, ts.sign ⟨u.id⟩ now, ?_⟩
    rw [signup_of_fresh ts st body now hf, hu]
    rfl

/-- Witness of C2: the first signup on an empty store succeeds and stores a cart of 300
entries. -/
theorem signup_cart_initialised_witness :
    ∃ st' t u, signup demoTokens ⟨[], [], 7⟩ ⟨some "ann", some "ann@shop.it", some "pw"⟩ 1000
        = .ok (st', ⟨200, .token t⟩)
      ∧ st' = ⟨[], [] ++ [u], 7 + 1⟩ ∧ u.cartData.length = 300 := by
  have h := signup_cart_initialised demoTokens ⟨[], [], 7⟩
    ⟨some "ann", some "ann@shop.it", some "pw"⟩ 1000
  obtain ⟨st', t, hs⟩ := h.2 (by simp) (by decide)
  obtain ⟨-, u, hst, -, -, hlen, -⟩ := h.1 st' _ hs rfl
  exact ⟨st', t, u, hs, hst, hlen⟩

/-- C3: when the store already holds a user with the email of the body, `signup` answers 400
with `success: false` and "User already exists", carries no token and leaves the store as it
was; so a signup that follows a successful signup with the same email is refused and adds no
record. -/
theorem signup_duplicate_rejected (ts : TokenService) (st : Store) (body : SignupBody)
    (now : Nat) (u : User) (hu : u ∈ st.users) (he : body.email = some u.email) :
    signup ts st body now = .ok (st, ⟨400, .failure "User already exists"⟩)
    ∧ ∀ (st0 st1 : Store) (body1 body2 : SignupBody) (now1 now2 : Nat) (r1 : Response),
        signup ts st0 body1 now1 = .ok (st1, r1) → r1.status = 200 →
        body2.email = body1.email →
        signup ts st1 body2 now2 = .ok (st1, ⟨400, .failure "User already exists"⟩) := by
  have key : ∀ (s : Store) (b : SignupBody) (t : Nat),
      (∃ v ∈ s.users, some v.email = b.email) →
      signup ts s b t = .ok (s, ⟨400, .failure "User already exists"⟩) := by
    intro s b t hex
    cases hf : findOneByEmail s.users b.email with
    | none =>
      obtain ⟨v, hv, hve⟩ := hex
      exact absurd hve ((findOneByEmail_eq_none _ _).1 hf v hv)
    | some w => exact signup_of_found ts s b t w hf
  refine ⟨key st body now ⟨u, hu, he.symm⟩, ?_⟩
  intro st0 st1 body1 body2 now1 now2 r1 h1 hr1 h12
  obtain ⟨v, rfl, -, hv, -⟩ := signup_ok_inv ts st0 st1 body1 now1 r1 h1 hr1
  have hve : some v.email = body1.email := ((newUser_ok_iff _ _ _ _ _).1 hv).2.2.2.1
  exact key _ body2 now2 ⟨v, by simp, by rw [h12]; exact hve⟩

/-- Witness of C3: a second signup with the email of a stored user. -/
theorem signup_duplicate_rejected_witness :
    signup demoTokens ⟨[], [⟨0, "ann", "ann@shop.it", "pw", [], 5⟩], 1⟩
        ⟨some "bob", some "ann@shop.it", some "other"⟩ 9
      = .ok (⟨[], [⟨0, "ann", "ann@shop.it", "pw", [], 5⟩], 1⟩,
          ⟨400, .failure "User already exists"⟩) :=
  (signup_duplicate_rejected demoTokens ⟨[], [⟨0, "ann", "ann@shop.it", "pw", [], 5⟩], 1⟩
    ⟨some "bob", some "ann@shop.it", some "other"⟩ 9 ⟨0, "ann", "ann@shop.it", "pw", [], 5⟩
    (List.mem_singleton.2 rfl) rfl).1

/-- C4: `login` answers with a token exactly when the store holds a user with the email of
the body and the password of the body equals the stored password of the first such user; the
token is then the one signed for the identity of that user.  When no stored user has the
email, and when the first stored user with the email has another password than the one
supplied (or none is supplied), the answer is 400 with `success: false`, "Invalid
Credentials", and no token.  `login` always answers and never changes the store.  In a store
where no two users share an email, the token is given exactly when some stored user has the
email and the password of the body, and it is signed for that user. -/
theorem login_token_iff (ts : TokenService) (st : Store) (body : LoginBody) (now : Nat) :
    (∀ t : String, login ts st body now = .ok (st, ⟨200, .token t⟩) ↔
        ∃ l₁ u l₂, st.users = l₁ ++ u :: l₂ ∧ (∀ v ∈ l₁, some v.email ≠ body.email)
          ∧ some u.email = body.email ∧ body.password = some u.password
          ∧ t = ts.sign ⟨u.id⟩ now)
    ∧ ((∀ v ∈ st.users, some v.email ≠ body.email) →
        login ts st body now = .ok (st, ⟨400, .failure "Invalid Credentials"⟩))
    ∧ (∀ l₁ u l₂, st.users = l₁ ++ u :: l₂ → (∀ v ∈ l₁, some v.email ≠ body.email) →
        some u.email = body.email → body.password ≠ some u.password →
        login ts st body now = .ok (st, ⟨400, .failure "Invalid Credentials"⟩))
    ∧ (∃ r, login ts st body now = .ok (st, r)
        ∧ (r = ⟨400, .failure "Invalid Credentials"⟩ ∨ ∃ t, r = ⟨200, .token t⟩))
    ∧ ((st.users.map (fun u => u.email)).Nodup →
        ∀ t : String, login ts st body now = .ok (st, ⟨200, .token t⟩) ↔
          ∃ u ∈ st.users, some u.email = body.email ∧ body.password = some u.password
            ∧ t = ts.sign ⟨u.id⟩ now) := by
  have hfirst : ∀ t : String, login ts st body now = .ok (st, ⟨200, .token t⟩) ↔
      ∃ l₁ u l₂, st.users = l₁ ++ u :: l₂ ∧ (∀ v ∈ l₁, some v.email ≠ body.email)
        ∧ some u.email = body.email ∧ body.password = some u.password
        ∧ t = ts.sign ⟨u.id⟩ now := by
    intro t
    cases hf : findOneByEmail st.users body.email with
    | none =>
      have hnone := (findOneByEmail_eq_none _ _).1 hf
      simp only [login, hf]
      constructor
      · intro h
        simp at h
      · rintro ⟨l₁, u, l₂, hl, -, hu, -⟩
        exact absurd hu (hnone u (by rw [hl]; simp))
    | some w =>
      obtain ⟨m₁, m₂, hm, hmne, hw⟩ := (findOneByEmail_eq_some _ _ _).1 hf
      have huniq : ∀ l₁ u l₂, st.users = l₁ ++ u :: l₂ →
          (∀ v ∈ l₁, some v.email ≠ body.email) → some u.email = body.email → u = w := by
        intro l₁ u l₂ hl hne hu
        have := (findOneByEmail_eq_some st.users body.email u).2 ⟨l₁, l₂, hl, hne, hu⟩
        rw [hf] at this
        exact (Option.some.inj this).symm
      by_cases hp : body.password = some w.password
      · simp only [login, hf, hp, ne_eq, not_true_eq_false, if_false, Except.ok.injEq,
          Prod.mk.injEq, true_and, Response.mk.injEq, Body.token.injEq]
        constructor
        · intro h
          exact ⟨m₁, w, m₂, hm, hmne, hw, rfl, h.symm⟩
        · rintro ⟨l₁, u, l₂, hl, hne, hu, -, ht⟩
          rw [huniq l₁ u l₂ hl hne hu] at ht
          exact ht.symm
      · simp only [login, hf, hp, ne_eq, not_false_eq_true, if_true]
        constructor
        · intro h
          simp at h
        · rintro ⟨l₁, u, l₂, hl, hne, hu, hpw, -⟩
          rw [huniq l₁ u l₂ hl hne hu] at hpw
          exact absurd hpw hp
  refine ⟨hfirst, ?_, ?_, ?_, ?_⟩
  · intro hnone
    simp [login, (findOneByEmail_eq_none _ _).2 hnone]
  · intro l₁ u l₂ hl hne hu hp
    have hf := (findOneByEmail_eq_some st.users body.email u).2 ⟨l₁, l₂, hl, hne, hu⟩
    simp [login, hf, hp]
  · cases hf : findOneByEmail st.users body.email with
    | none => exact ⟨_, by simp [login, hf], Or.inl rfl⟩
    | some u =>
      by_cases hp : body.password = some u.password
      · exact ⟨⟨200, .token (ts.sign ⟨u.id⟩ now)⟩, by simp [login, hf, hp], Or.inr ⟨_, rfl⟩⟩
      · exact ⟨_, by simp [login, hf, hp], Or.inl rfl⟩
  · intro hnd t
    rw [hfirst t]
    constructor
    · rintro ⟨l₁, u, l₂, hl, -, hu, hp, ht⟩
      exact ⟨u, by rw [hl]; simp, hu, hp, ht⟩
    · rintro ⟨u, hmem, hu, hp, ht⟩
      obtain ⟨l₁, l₂, hl⟩ := List.append_of_mem hmem
      refine ⟨l₁, u, l₂, hl, ?_, hu, hp, ht⟩
      intro v hv hve
      rw [hl, List.map_append, List.map_cons, List.nodup_append] at hnd
      have hsame : v.email = u.email := Option.some.inj (hve.trans hu.symm)
      exact hnd.2.2 (List.mem_map.2 ⟨v, hv, rfl⟩) (hsame ▸ List.mem_cons_self _ _)

/-! ## The claims on the guard and the cart -/

theorem fetchUser_of_verified (ts : TokenService) (token : String) (now : Nat) (user : Identity)
    (htoken : token ≠ "") (hverify : ts.verify token now = some user) :
    fetchUser ts (some token) now = .next user := by
  simp [fetchUser, noToken, htoken, hverify]

theorem findById_of_first (l₁ l₂ : List User) (u : User) (id : Nat)
    (hl₁ : ∀ v ∈ l₁, v.id ≠ id) (hu : u.id = id) :
    findById (l₁ ++ u :: l₂) id = some u := by
  induction l₁ with
  | nil => simp [findById, hu]
  | cons v t ih =>
    have hv : v.id ≠ id := hl₁ v (List.mem_cons_self _ _)
    have := ih (fun w hw => hl₁ w (List.mem_cons_of_mem _ hw))
    simp only [findById] at this
    simp [findById, hv, this]

theorem findById_eq_none (users : List User) (id : Nat) :
    findById users id = none ↔ ∀ v ∈ users, v.id ≠ id := by
  simp [findById, List.find?_eq_none]

theorem findByIdAndUpdate_of_first (l₁ l₂ : List User) (u : User) (id : Nat) (cart : CartData)
    (hl₁ : ∀ v ∈ l₁, v.id ≠ id) (hu : u.id = id) :
    findByIdAndUpdate (l₁ ++ u :: l₂) id cart
      = l₁ ++ ⟨u.id, u.name, u.email, u.password, cart, u.date⟩ :: l₂ := by
  induction l₁ with
  | nil => simp [findByIdAndUpdate, hu]
  | cons v t ih =>
    have hv : v.id ≠ id := hl₁ v (List.mem_cons_self _ _)
    have := ih (fun w hw => hl₁ w (List.mem_cons_of_mem _ hw))
    simp [findByIdAndUpdate, hv, this]

theorem addToCartRoute_of_first (ts : TokenService) (st : Store) (token itemId : String)
    (now : Nat) (user : Identity) (l₁ l₂ : List User) (u : User)
    (htoken : token ≠ "") (hverify : ts.verify token now = some user)
    (hst : st.users = l₁ ++ u :: l₂) (hl₁ : ∀ v ∈ l₁, v.id ≠ user.id) (hu : u.id = user.id) :
    addToCartRoute ts st (some token) itemId now =
      .ok (⟨st.products, l₁ ++ ⟨u.id, u.name, u.email, u.password,
              CartData.assign u.cartData itemId (orZeroPlusOne (CartData.read u.cartData itemId)),
              u.date⟩ :: l₂, st.nextOid⟩, ⟨200, .text "Added to cart"⟩) := by
  have hf : findById st.users user.id = some u := by
    rw [hst]
    exact findById_of_first l₁ l₂ u user.id hl₁ hu
  have hupd := findByIdAndUpdate_of_first l₁ l₂ u user.id
    (CartData.assign u.cartData itemId (orZeroPlusOne (CartData.read u.cartData itemId))) hl₁ hu
  rw [← hst] at hupd
  simp only [addToCartRoute, fetchUser_of_verified ts token now user htoken hverify, addToCart,
    hf, hupd]

theorem cart_step (c : CartData) (k : String) (q : Nat) (hkey : k ∉ prototypeMembers)
    (hq : holds c k q) (hlt : q < 2 ^ 53) :
    CartData.get (CartData.assign c k (orZeroPlusOne (CartData.read c k))) k
        = some (.num (q + 1))
      ∧ (∀ j, j ≠ k →
        CartData.get (CartData.assign c k (orZeroPlusOne (CartData.read c k))) j
          = CartData.get c j)
      ∧ (k, Stored.num (q + 1)) ∈ CartData.assign c k (orZeroPlusOne (CartData.read c k))
      ∧ ∀ e : String × Stored, e.1 ≠ k →
        (e ∈ CartData.assign c k (orZeroPlusOne (CartData.read c k)) ↔ e ∈ c) := by
  have hproto : k ≠ "__proto__" := fun h => hkey (by rw [h]; exact List.mem_cons_self _ _)
  have hfun : k ∉ prototypeFunctions := fun h => hkey (List.mem_cons_of_mem _ h)
  have hcons : k ≠ "constructor" := fun h => hfun (by rw [h]; exact List.mem_cons_self _ _)
  have hassign : ∀ v, CartData.assign c k v = CartData.set c k v := by
    intro v
    unfold CartData.assign
    rw [if_neg (fun h => hproto h.1)]
  have hval : orZeroPlusOne (CartData.read c k) = .num (q + 1) := by
    rcases hq with hq | ⟨hq, rfl⟩
    · simp only [CartData.read, hq, orZeroPlusOne]
      by_cases h0 : q = 0
      · subst h0
        rfl
      · rw [if_neg h0, addOne_nat q hlt]
    · simp only [CartData.read, hq, hproto, hcons, hfun, if_false, orZeroPlusOne]
      rfl
  rw [hassign, hval]
  exact ⟨CartData.get_set_self c k _, fun j hj => CartData.get_set_of_ne c k j _ hj,
    CartData.mem_set_self c k _, fun e he => CartData.mem_set_of_ne c k _ e he⟩

theorem addToCartTimes_spec (ts : TokenService) (token itemId : String) (now : Nat)
    (user : Identity) (l₁ l₂ : List User)
    (htoken : token ≠ "") (hverify : ts.verify token now = some user)
    (hl₁ : ∀ v ∈ l₁, v.id ≠ user.id) (hkey : itemId ∉ prototypeMembers) (n : Nat) :
    ∀ (st : Store) (u : User) (q : Nat), st.users = l₁ ++ u :: l₂ → u.id = user.id →
      holds u.cartData itemId q → q + n ≤ 2 ^ 53 →
      ∃ cart', addToCartTimes ts (some token) itemId now n st
          = .ok ⟨st.products, l₁ ++ ⟨u.id, u.name, u.email, u.password, cart', u.date⟩ :: l₂,
              st.nextOid⟩
        ∧ holds cart' itemId (q + n)
        ∧ ∀ j, j ≠ itemId → CartData.get cart' j = CartData.get u.cartData j := by
  induction n with
  | zero =>
    intro st u q hst hu hq _
    refine ⟨u.cartData, ?_, hq, fun _ _ => rfl⟩
    simp only [addToCartTimes]
    rw [← hst]
  | succ n ih =>
    intro st u q hst hu hq hle
    have hstep := addToCartRoute_of_first ts st token itemId now user l₁ l₂ u htoken hverify
      hst hl₁ hu
    obtain ⟨hget, hframe, -, -⟩ := cart_step u.cartData itemId q hkey hq (by omega)
    obtain ⟨cart', h1, h2, h3⟩ := ih
      ⟨st.products, l₁ ++ ⟨u.id, u.name, u.email, u.password,
        CartData.assign u.cartData itemId (orZeroPlusOne (CartData.read u.cartData itemId)),
        u.date⟩ :: l₂, st.nextOid⟩
      ⟨u.id, u.name, u.email, u.password,
        CartData.assign u.cartData itemId (orZeroPlusOne (CartData.read u.cartData itemId)),
        u.date⟩ (q + 1) rfl hu (Or.inl hget) (by omega)
    refine ⟨cart', ?_, ?_, ?_⟩
    · simp only [addToCartTimes, hstep]
      exact h1
    · have : q + 1 + n = q + (n + 1) := by omega
      rw [← this]
      exact h2
    · intro j hj
      rw [h3 j hj]
      exact hframe j hj

/-- C5, as the code has it: for a request whose token verifies to the key of a stored user,
with an item id whose property key is not the name of a member of `Object.prototype`, and a
cart that holds under that key a number `q` below `2 ^ 53` or nothing (then `q = 0`), one
`addToCart` call answers "Added to cart" and leaves that user's stored `cartData[itemId]`
equal to `q + 1`, every other key of the cart and every other user staying as they were; `n`
such calls one after the other leave `q + n` as long as `q + n` does not exceed `2 ^ 53`; on
the cart filled at signup, item 5 holds 1 after one call and 3 after three. -/
theorem addToCart_increments (ts : TokenService) (st : Store) (token itemId : String)
    (now : Nat) (user : Identity) (l₁ l₂ : List User) (u : User) (q : Nat)
    (htoken : token ≠ "") (hverify : ts.verify token now = some user)
    (hst : st.users = l₁ ++ u :: l₂) (hl₁ : ∀ v ∈ l₁, v.id ≠ user.id) (hu : u.id = user.id)
    (hkey : itemId ∉ prototypeMembers)
    (hq : CartData.get u.cartData itemId = some (.num q)
      ∨ (CartData.get u.cartData itemId = none ∧ q = 0))
    (hlt : q < 2 ^ 53) :
    (∃ cart', addToCartRoute ts st (some token) itemId now
          = .ok (⟨st.products, l₁ ++ ⟨u.id, u.name, u.email, u.password, cart', u.date⟩ :: l₂,
              st.nextOid⟩, ⟨200, .text "Added to cart"⟩)
        ∧ CartData.get cart' itemId = some (.num (q + 1))
        ∧ (∀ k, k ≠ itemId → CartData.get cart' k = CartData.get u.cartData k)
        ∧ (itemId, Stored.num (q + 1)) ∈ cart'
        ∧ ∀ e : String × Stored, e.1 ≠ itemId → (e ∈ cart' ↔ e ∈ u.cartData))
    ∧ (∀ n, 0 < n → q + n ≤ 2 ^ 53 →
        ∃ cart', addToCartTimes ts (some token) itemId now n st
            = .ok ⟨st.products, l₁ ++ ⟨u.id, u.name, u.email, u.password, cart', u.date⟩ :: l₂,
                st.nextOid⟩
          ∧ CartData.get cart' itemId = some (.num (q + n))
          ∧ ∀ k, k ≠ itemId → CartData.get cart' k = CartData.get u.cartData k)
    ∧ (u.cartData = initialCart → itemId = "5" →
        (∃ cart', addToCartTimes ts (some token) itemId now 1 st
            = .ok ⟨st.products, l₁ ++ ⟨u.id, u.name, u.email, u.password, cart', u.date⟩ :: l₂,
                st.nextOid⟩
          ∧ CartData.get cart' "5" = some (.num 1))
        ∧ ∃ cart', addToCartTimes ts (some token) itemId now 3 st
            = .ok ⟨st.products, l₁ ++ ⟨u.id, u.name, u.email, u.password, cart', u.date⟩ :: l₂,
                st.nextOid⟩
          ∧ CartData.get cart' "5" = some (.num 3)) := by
  have htimes : ∀ n, 0 < n → q + n ≤ 2 ^ 53 →
      ∃ cart', addToCartTimes ts (some token) itemId now n st
          = .ok ⟨st.products, l₁ ++ ⟨u.id, u.name, u.email, u.password, cart', u.date⟩ :: l₂,
              st.nextOid⟩
        ∧ CartData.get cart' itemId = some (.num (q + n))
        ∧ ∀ k, k ≠ itemId → CartData.get cart' k = CartData.get u.cartData k := by
    intro n hn hle
    obtain ⟨cart', h1, h2, h3⟩ := addToCartTimes_spec ts token itemId now user l₁ l₂ htoken
      hverify hl₁ hkey n st u q hst hu hq hle
    refine ⟨cart', h1, ?_, h3⟩
    rcases h2 with h2 | ⟨-, h0⟩
    · exact h2
    · omega
  refine ⟨?_, htimes, ?_⟩
  · obtain ⟨hget, hframe, hmem, hrest⟩ := cart_step u.cartData itemId q hkey hq hlt
    exact ⟨_, addToCartRoute_of_first ts st token itemId now user l₁ l₂ u htoken hverify hst
      hl₁ hu, hget, hframe, hmem, hrest⟩
  · intro hc hi
    subst hi
    have h5 : CartData.get u.cartData "5" = some (.num 0) := by
      rw [hc, initialCart_spec.2.2.2 "5", if_pos]
      exact List.mem_map.2 ⟨5, List.mem_range.2 (by decide), rfl⟩
    have hq0 : q = 0 := by
      rcases hq with hq | ⟨-, h0⟩
      · rw [h5] at hq
        cases hq
        rfl
      · exact h0
    subst hq0
    obtain ⟨c1, h1, g1, -⟩ := htimes 1 (by decide) (by decide)
    obtain ⟨c3, h3, g3, -⟩ := htimes 3 (by decide) (by decide)
    exact ⟨⟨c1, h1, g1⟩, ⟨c3, h3, g3⟩⟩

/-- Witness of C5: the user with key 0 holds two of item 5 and sends a token of identity 0. -/
theorem addToCart_increments_witness :
    ∃ cart', addToCartRoute demoTokens
          ⟨[], [] ++ ⟨0, "ann", "ann@shop.it", "pw", [("5", .num 2)], 1⟩ :: [], 1⟩
          (some "x") "5" 9
        = .ok (⟨[], [] ++ ⟨0, "ann", "ann@shop.it", "pw", cart', 1⟩ :: [], 1⟩,
            ⟨200, .text "Added to cart"⟩)
      ∧ CartData.get cart' "5" = some (.num (2 + 1))
      ∧ (∀ k, k ≠ "5" → CartData.get cart' k = CartData.get [("5", .num 2)] k)
      ∧ ("5", Stored.num (2 + 1)) ∈ cart'
      ∧ ∀ e : String × Stored, e.1 ≠ "5" → (e ∈ cart' ↔ e ∈ [("5", Stored.num 2)]) :=
  (addToCart_increments demoTokens
    ⟨[], [] ++ ⟨0, "ann", "ann@shop.it", "pw", [("5", .num 2)], 1⟩ :: [], 1⟩ "x" "5" 9 ⟨0⟩
    [] [] ⟨0, "ann", "ann@shop.it", "pw", [("5", .num 2)], 1⟩ 2
    (by decide) rfl rfl (by simp) rfl (by decide) (Or.inl rfl) (by decide)).1

/-- Counterexample to C5 as stated: on an empty cart the item id "constructor" reads the
function that the cart inherits, and the call stores the text of that function followed by
"1" instead of the quantity 1; and a quantity of `2 ^ 53` is left as it is by the call. -/
theorem addToCart_not_incremented :
    addToCartRoute demoTokens ⟨[], [⟨0, "ann", "ann@shop.it", "pw", [], 1⟩], 1⟩
        (some "x") "constructor" 9
      = .ok (⟨[], [⟨0, "ann", "ann@shop.it", "pw",
            [("constructor", .str "function Object() \x7b [native code] \x7d1")], 1⟩], 1⟩,
          ⟨200, .text "Added to cart"⟩)
    ∧ addToCartRoute demoTokens
        ⟨[], [⟨0, "ann", "ann@shop.it", "pw", [("5", .num 9007199254740992)], 1⟩], 1⟩
        (some "x") "5" 9
      = .ok (⟨[], [⟨0, "ann", "ann@shop.it", "pw", [("5", .num 9007199254740992)], 1⟩], 1⟩,
          ⟨200, .text "Added to cart"⟩) := by
  exact ⟨by decide, by decide⟩

theorem fetchUser_next_iff (ts : TokenService) (header : Option String) (now : Nat)
    (user : Identity) :
    fetchUser ts header now = .next user ↔
      ∃ token, header = some token ∧ token ≠ "" ∧ ts.verify token now = some user := by
  cases header with
  | none => simp [fetchUser]
  | some t =>
    by_cases ht : t = ""
    · simp [fetchUser, noToken, ht]
    · cases hv : ts.verify t now with
      | none => simp [fetchUser, noToken, ht, hv]
      | some v => simp [fetchUser, noToken, ht, hv]

/-- C6, as the code has it: the guard hands the request to the protected handler exactly when
the `auth-token` header holds a non-empty token that verifies, and `req.user` is then the
identity the token encodes.  A missing header and an empty one are answered 401 "Access
Denied"; a non-empty token that fails verification is answered 401 "Invalid Token"; whenever
the guard answers, the route ends with that answer and the store it was given, the handler not
being run. -/
theorem fetchUser_guard (ts : TokenService) (st : Store) (header : Option String)
    (itemId : String) (now : Nat) :
    (∀ user, fetchUser ts header now = .next user ↔
        ∃ token, header = some token ∧ token ≠ "" ∧ ts.verify token now = some user)
    ∧ (header = none ∨ header = some "" →
        fetchUser ts header now = .respond ⟨401, .error "Access Denied"⟩)
    ∧ (∀ token, header = some token → token ≠ "" → ts.verify token now = none →
        fetchUser ts header now = .respond ⟨401, .error "Invalid Token"⟩)
    ∧ (∀ r, fetchUser ts header now = .respond r →
        addToCartRoute ts st header itemId now = .ok (st, r))
    ∧ (∀ user, fetchUser ts header now = .next user →
        addToCartRoute ts st header itemId now = addToCart st user itemId) := by
  refine ⟨fetchUser_next_iff ts header now, ?_, ?_, ?_, ?_⟩
  · rintro (h | h) <;> subst h <;> simp [fetchUser, noToken]
  · intro token h ht hv
    subst h
    simp [fetchUser, noToken, ht, hv]
  · intro r h
    simp [addToCartRoute, h]
  · intro user h
    simp [addToCartRoute, h]

/-- Counterexample to C6 as stated: the header is present with an empty value, the empty token
does not verify, and the answer is "Access Denied", not "Invalid Token". -/
theorem fetchUser_empty_header :
    demoTokens.verify "" 0 = none
    ∧ fetchUser demoTokens (some "") 0 = .respond ⟨401, .error "Access Denied"⟩
    ∧ fetchUser demoTokens (some "") 0 ≠ .respond ⟨401, .error "Invalid Token"⟩ := by
  refine ⟨rfl, rfl, ?_⟩
  decide

/-! ## Lemmas on the catalog queries -/

theorem sortDesc_sorted {α : Type} [LinearOrder α] (key : Product → α) (l : List Product) :
    (sortDesc key l).Sorted (fun a b => key b ≤ key a) := by
  haveI : IsTotal Product (fun a b => key b ≤ key a) := ⟨fun a b => le_total (key b) (key a)⟩
  haveI : IsTrans Product (fun a b => key b ≤ key a) := ⟨fun _ _ _ h1 h2 => le_trans h2 h1⟩
  exact List.sorted_insertionSort _ l

theorem sortDesc_perm {α : Type} [LinearOrder α] (key : Product → α) (l : List Product) :
    (sortDesc key l).Perm l :=
  List.perm_insertionSort _ l

theorem lastProduct_some (products : List Product) (m : Product)
    (h : lastProduct products = some m) :
    m ∈ products ∧ ∀ q ∈ products, q.id ≤ m.id := by
  obtain ⟨rest, hrest⟩ := List.head?_eq_some_iff.1 h
  have hs := sortDesc_sorted (fun p => p.id) products
  have hp := sortDesc_perm (fun p => p.id) products
  rw [hrest] at hs hp
  refine ⟨hp.mem_iff.1 (List.mem_cons_self _ _), ?_⟩
  intro q hq
  rcases List.mem_cons.1 (hp.mem_iff.2 hq) with rfl | hq'
  · exact le_refl _
  · exact List.rel_of_sorted_cons hs q hq'

theorem lastProduct_of_ne_nil (products : List Product) (h : products ≠ []) :
    ∃ m, lastProduct products = some m := by
  cases hl : lastProduct products with
  | some m => exact ⟨m, rfl⟩
  | none =>
    have hnil : sortDesc (fun p => p.id) products = [] := List.head?_eq_none_iff.1 hl
    have hp := sortDesc_perm (fun p => p.id) products
    rw [hnil] at hp
    exact absurd hp.nil_eq.symm h

theorem nextProductId_spec (products : List Product)
    (hids : ∀ q ∈ products, q.id.natAbs < 2 ^ 53) :
    (products = [] → nextProductId products = 1)
    ∧ (products ≠ [] → ∃ m ∈ products, (∀ q ∈ products, q.id ≤ m.id)
        ∧ nextProductId products = m.id + 1) := by
  constructor
  · intro h
    subst h
    rfl
  · intro h
    obtain ⟨m, hm⟩ := lastProduct_of_ne_nil products h
    obtain ⟨h1, h2⟩ := lastProduct_some products m hm
    refine ⟨m, h1, h2, ?_⟩
    simp only [nextProductId, hm]
    exact addOne_of_small m.id (hids m h1)

theorem productErrors_eq_empty (body : ProductBody) :
    productErrors body = ∅ ↔
      (requiredString body.name = true ∧ requiredString body.image = true
        ∧ requiredString body.category = true ∧ requiredNumber body.new_price = true
        ∧ requiredNumber body.old_price = true ∧ castDate body.date = true) := by
  simp [productErrors, Finset.union_eq_empty, failed_eq_empty, and_assoc]

theorem newProduct_of_valid (id : Int) (bid : Option Int) (name image category : String)
    (new_price old_price : Int) (date : Option Int) (available : Option Bool) (now : Nat)
    (hname : name ≠ "") (himage : image ≠ "") (hcategory : category ≠ "")
    (hdate : ∀ d, date = some d → d.natAbs ≤ 8640000000000000) :
    newProduct id
        ⟨bid, some name, some image, some category, some new_price, some old_price, date,
          available⟩ now
      = .ok ⟨spreadId id ⟨bid, some name, some image, some category, some new_price,
              some old_price, date, available⟩,
            name, image, category, new_price, old_price, date.getD now,
            available.getD true⟩ := by
  have hv : productErrors ⟨bid, some name, some image, some category, some new_price,
      some old_price, date, available⟩ = ∅ := by
    rw [productErrors_eq_empty]
    refine ⟨by simpa [requiredString] using hname, by simpa [requiredString] using himage,
      by simpa [requiredString] using hcategory, rfl, rfl, ?_⟩
    cases date with
    | none => rfl
    | some d => simpa [castDate] using hdate d rfl
  simp only [newProduct]
  rw [if_pos hv]

theorem newProduct_ok_id (id : Int) (body : ProductBody) (now : Nat) (p : Product)
    (h : newProduct id body now = .ok p) : p.id = spreadId id body := by
  unfold newProduct at h
  split at h
  · split at h
    · cases h
      rfl
    · cases h
  · cases h

theorem newProduct_error (id : Int) (body : ProductBody) (now : Nat)
    (h : productErrors body ≠ ∅) :
    newProduct id body now = .error (.validationError (productErrors body)) := by
  unfold newProduct
  split
  · rw [if_neg h]
  · rfl

theorem addproduct_eq (st : Store) (body : ProductBody) (now : Nat) :
    addproduct st body now =
      (newProduct (nextProductId st.products) body now).map (fun product =>
        (⟨st.products ++ [product], st.users, st.nextOid⟩, ⟨200, .named body.name⟩)) := by
  simp only [addproduct]
  cases newProduct (nextProductId st.products) body now <;> rfl

theorem addproduct_of_valid (st : Store) (name image category : String)
    (new_price old_price : Int) (date : Option Int) (available : Option Bool) (now : Nat)
    (hname : name ≠ "") (himage : image ≠ "") (hcategory : category ≠ "")
    (hdate : ∀ d, date = some d → d.natAbs ≤ 8640000000000000) :
    addproduct st
        ⟨none, some name, some image, some category, some new_price, some old_price, date,
          available⟩ now
      = .ok (⟨st.products ++ [⟨nextProductId st.products, name, image, category, new_price,
              old_price, date.getD now, available.getD true⟩], st.users, st.nextOid⟩,
          ⟨200, .named (some name)⟩) := by
  rw [addproduct_eq, newProduct_of_valid _ none name image category new_price old_price date
    available now hname himage hcategory hdate]
  rfl

theorem nextProductId_singleton (p : Product) (h : p.id.natAbs < 2 ^ 53) :
    nextProductId [p] = p.id + 1 := by
  show addOne p.id = p.id + 1
  exact addOne_of_small p.id h

/-! ## The claims on the catalog -/

/-- C1, as the code has it: on a catalog whose ids are below `2 ^ 53` in magnitude, for every
body that carries no `id`, whose `name`, `image` and `category` are non-empty strings, whose
two prices are present and whose `date`, when present, lies in the range of dates,
`addproduct` stores one new product with the fields of the body, whose id is the largest id
among the stored products plus 1, or 1 when the catalog is empty; two such calls in a row on
an empty catalog store the ids 1 and then 2. -/
theorem addproduct_assigns_next_id (st : Store) (name image category : String)
    (new_price old_price : Int) (date : Option Int) (available : Option Bool) (now : Nat)
    (hname : name ≠ "") (himage : image ≠ "") (hcategory : category ≠ "")
    (hdate : ∀ d, date = some d → d.natAbs ≤ 8640000000000000)
    (hids : ∀ q ∈ st.products, q.id.natAbs < 2 ^ 53) :
    ∃ newId : Int,
      addproduct st
          ⟨none, some name, some image, some category, some new_price, some old_price, date,
            available⟩ now
        = .ok (⟨st.products ++ [⟨newId, name, image, category, new_price, old_price,
                date.getD now, available.getD true⟩], st.users, st.nextOid⟩,
            ⟨200, .named (some name)⟩)
      ∧ (st.products = [] → newId = 1)
      ∧ (st.products ≠ [] →
          ∃ m ∈ st.products, (∀ q ∈ st.products, q.id ≤ m.id) ∧ newId = m.id + 1)
      ∧ (st.products = [] → ∀ (name2 image2 category2 : String) (new_price2 old_price2 : Int)
          (date2 : Option Int) (available2 : Option Bool) (now2 : Nat),
          name2 ≠ "" → image2 ≠ "" → category2 ≠ "" →
          (∀ d, date2 = some d → d.natAbs ≤ 8640000000000000) →
          addproduct
              ⟨st.products ++ [⟨newId, name, image, category, new_price, old_price,
                date.getD now, available.getD true⟩], st.users, st.nextOid⟩
              ⟨none, some name2, some image2, some category2, some new_price2, some old_price2,
                date2, available2⟩ now2
            = .ok (⟨[⟨1, name, image, category, new_price, old_price, date.getD now,
                    available.getD true⟩,
                  ⟨2, name2, image2, category2, new_price2, old_price2, date2.getD now2,
                    available2.getD true⟩], st.users, st.nextOid⟩,
                ⟨200, .named (some name2)⟩)) := by
  have hn := nextProductId_spec st.products hids
  refine ⟨nextProductId st.products,
    addproduct_of_valid st name image category new_price old_price date available now hname
      himage hcategory hdate, hn.1, hn.2, ?_⟩
  intro he name2 image2 category2 new_price2 old_price2 date2 available2 now2 h1 h2 h3 h4
  have hnext : nextProductId [⟨1, name, image, category, new_price, old_price, date.getD now,
      available.getD true⟩] = 2 := by
    rw [nextProductId_singleton _ (by show (1 : Int).natAbs < 2 ^ 53; decide)]
    rfl
  rw [addproduct_of_valid _ name2 image2 category2 new_price2 old_price2 date2 available2 now2
    h1 h2 h3 h4]
  simp only [hn.1 he]
  simp only [he, List.nil_append, hnext, List.singleton_append]

/-- Witness of C1: a complete body without `id`, on a catalog that holds the ids 4 and 9. -/
theorem addproduct_assigns_next_id_witness :
    addproduct ⟨[⟨4, "a", "a.png", "men", 5, 6, 1, true⟩, ⟨9, "b", "b.png", "kid", 7, 8, 2, true⟩],
        [], 0⟩ ⟨none, some "c", some "c.png", some "women", some 50, some 80, none, none⟩ 3 =
      .ok (⟨[⟨4, "a", "a.png", "men", 5, 6, 1, true⟩, ⟨9, "b", "b.png", "kid", 7, 8, 2, true⟩]
          ++ [⟨10, "c", "c.png", "women", 50, 80, 3, true⟩], [], 0⟩,
        ⟨200, .named (some "c")⟩) := by
  obtain ⟨newId, hp, -, hmax, -⟩ := addproduct_assigns_next_id
    ⟨[⟨4, "a", "a.png", "men", 5, 6, 1, true⟩, ⟨9, "b", "b.png", "kid", 7, 8, 2, true⟩], [], 0⟩
    "c" "c.png" "women" 50 80 none none 3 (by decide) (by decide) (by decide)
    (by intro d hd; cases hd) (by decide)
  obtain ⟨m, hm, hle, hid⟩ := hmax (by simp)
  have h9 := hle ⟨9, "b", "b.png", "kid", 7, 8, 2, true⟩ (by simp)
  have hnew : newId = 10 := by
    simp only [List.mem_cons, List.mem_singleton, List.not_mem_nil, or_false] at hm
    rcases hm with rfl | rfl
    · simp at h9
    · exact hid
  rw [hnew] at hp
  exact hp

/-- Counterexample to C1 as stated: on the empty catalog, a body that carries product fields
but no `name` makes `save()` throw, so that no product is stored, and a complete body that
carries `id: 7` is stored with the id 7, not 1; on a catalog that holds the id `2 ^ 53`, a
complete body without `id` is stored with the id `2 ^ 53` again, not `2 ^ 53 + 1`. -/
theorem addproduct_not_next_id :
    addproduct ⟨[], [], 0⟩ ⟨none, none, some "c.png", some "women", some 50, some 80, none, none⟩ 3
      = .error (.validationError {"name"})
    ∧ addproduct ⟨[], [], 0⟩
        ⟨some 7, some "c", some "c.png", some "women", some 50, some 80, none, none⟩ 3
      = .ok (⟨[⟨7, "c", "c.png", "women", 50, 80, 3, true⟩], [], 0⟩, ⟨200, .named (some "c")⟩)
    ∧ addproduct ⟨[⟨9007199254740992, "a", "a.png", "men", 5, 6, 1, true⟩], [], 0⟩
        ⟨none, some "c", some "c.png", some "women", some 50, some 80, none, none⟩ 3
      = .ok (⟨[⟨9007199254740992, "a", "a.png", "men", 5, 6, 1, true⟩,
            ⟨9007199254740992, "c", "c.png", "women", 50, 80, 3, true⟩], [], 0⟩,
          ⟨200, .named (some "c")⟩) := by
  exact ⟨by decide, by decide, by decide⟩

/-- C7: `removeproduct` always answers `{ success: true }` and touches only the catalog; when
no product has the id the catalog is unchanged, and when some product has it the first
product with that id is removed, all the others staying in place unchanged. -/
theorem removeproduct_spec (st : Store) (id : Option Int) :
    ∃ products' : List Product,
      removeproduct st id = .ok (⟨products', st.users, st.nextOid⟩, ⟨200, .success⟩)
      ∧ ((∀ p ∈ st.products, some p.id ≠ id) → products' = st.products)
      ∧ ((∃ p ∈ st.products, some p.id = id) →
          ∃ l₁ p l₂, st.products = l₁ ++ p :: l₂ ∧ some p.id = id
            ∧ (∀ q ∈ l₁, some q.id ≠ id) ∧ products' = l₁ ++ l₂) := by
  refine ⟨findOneAndDelete st.products id, rfl, ?_, ?_⟩
  · intro h
    apply List.eraseP_of_forall_not
    intro a ha
    simpa using h a ha
  · rintro ⟨p, hp, hpid⟩
    obtain ⟨a, l₁, l₂, h1, h2, h3, h4⟩ :=
      List.exists_of_eraseP (p := fun p => decide (some p.id = id)) hp (by simpa using hpid)
    refine ⟨l₁, a, l₂, h3, by simpa using h2, ?_, h4⟩
    intro q hq
    simpa using h1 q hq

/-- C8: `newCollections` answers with `min 8 n` of the `n` stored products, hence at most 8,
in descending order of date; the products answered together with those left out are the whole
catalog, and no product left out has a later date than a product answered.  The store is
unchanged. -/
theorem newCollections_spec (st : Store) :
    ∃ ps : List Product,
      newCollections st = .ok (st, ⟨200, .products ps⟩)
      ∧ ps.length = min 8 st.products.length
      ∧ ps.length ≤ 8
      ∧ ps.Sorted (fun a b => b.date ≤ a.date)
      ∧ ∃ rest : List Product, (ps ++ rest).Perm st.products
          ∧ ∀ p ∈ ps, ∀ q ∈ rest, q.date ≤ p.date := by
  have hs := sortDesc_sorted (fun p => p.date) st.products
  have hp := sortDesc_perm (fun p => p.date) st.products
  have hsplit := List.take_append_drop 8 (sortDesc (fun p => p.date) st.products)
  refine ⟨(sortDesc (fun p => p.date) st.products).take 8, rfl, ?_, ?_, ?_,
    (sortDesc (fun p => p.date) st.products).drop 8, ?_, ?_⟩
  · rw [List.length_take, hp.length_eq]
  · rw [List.length_take]
    exact Nat.min_le_left _ _
  · exact List.Pairwise.sublist (List.take_sublist _ _) hs
  · rw [hsplit]
    exact hp
  · rw [← hsplit] at hs
    intro p hp' q hq
    exact (List.pairwise_append.1 hs).2.2 p hp' q hq

theorem CatalogRequest.run_nodup (st : Store) (req : CatalogRequest) (k : Nat)
    (hreq : ∀ body now, req = .addproduct body now → body.id = none)
    (hst : (st.products.map (fun p => p.id)).Nodup)
    (hk : k + 1 < 2 ^ 53) (hids : ∀ p ∈ st.products, p.id.natAbs + (k + 1) < 2 ^ 53) :
    ((CatalogRequest.run st req).products.map (fun p => p.id)).Nodup
      ∧ ∀ p ∈ (CatalogRequest.run st req).products, p.id.natAbs + k < 2 ^ 53 := by
  cases req with
  | addproduct body now =>
    have hid := hreq body now rfl
    simp only [CatalogRequest.run, addproduct_eq]
    cases hn : newProduct (nextProductId st.products) body now with
    | error e => exact ⟨hst, fun p hp => by have := hids p hp; omega⟩
    | ok p =>
      have hsmall : ∀ q ∈ st.products, q.id.natAbs < 2 ^ 53 :=
        fun q hq => by have := hids q hq; omega
      have hp : p.id = nextProductId st.products := by
        rw [newProduct_ok_id _ body now p hn]
        simp [spreadId, hid]
      have hspec := nextProductId_spec st.products hsmall
      show ((st.products ++ [p]).map (fun p => p.id)).Nodup
        ∧ ∀ q ∈ st.products ++ [p], q.id.natAbs + k < 2 ^ 53
      constructor
      · rw [List.map_append, List.nodup_append]
        refine ⟨hst, List.nodup_singleton _, ?_⟩
        intro a ha hb
        simp only [List.map_cons, List.map_nil, List.mem_singleton] at hb
        obtain ⟨q, hq, rfl⟩ := List.mem_map.1 ha
        obtain ⟨m, -, hm, he⟩ := hspec.2 (List.ne_nil_of_mem hq)
        have := hm q hq
        omega
      · intro q hq
        rcases List.mem_append.1 hq with hq | hq
        · have := hids q hq
          omega
        · rw [List.mem_singleton.1 hq, hp]
          by_cases hnil : st.products = []
          · rw [hspec.1 hnil]
            omega
          · obtain ⟨m, hmem, -, he⟩ := hspec.2 hnil
            have := hids m hmem
            rw [he]
            omega
  | removeproduct id =>
    show ((findOneAndDelete st.products id).map (fun p => p.id)).Nodup
      ∧ ∀ p ∈ findOneAndDelete st.products id, p.id.natAbs + k < 2 ^ 53
    refine ⟨List.Nodup.sublist ((List.eraseP_sublist _).map _) hst, ?_⟩
    intro p hp
    have := hids p ((List.eraseP_sublist _).subset hp)
    omega

/-- As long as no body carries an `id` and the ids stay below `2 ^ 53`, the ids of the catalog
stay pairwise distinct whatever the series of `addproduct` and `removeproduct` requests. -/
theorem runCatalog_nodup_of_no_body_id (reqs : List CatalogRequest) :
    ∀ st : Store, (∀ body now, CatalogRequest.addproduct body now ∈ reqs → body.id = none) →
      (st.products.map (fun p => p.id)).Nodup →
      reqs.length < 2 ^ 53 →
      (∀ p ∈ st.products, p.id.natAbs + reqs.length < 2 ^ 53) →
      ((runCatalog st reqs).products.map (fun p => p.id)).Nodup := by
  induction reqs with
  | nil =>
    intro st _ hst _ _
    exact hst
  | cons req t ih =>
    intro st hreqs hst hlen hids
    have hstep := CatalogRequest.run_nodup st req t.length
      (fun body now he => hreqs body now (he ▸ List.mem_cons_self _ _)) hst
      (by simpa using hlen) (by simpa using hids)
    apply ih (CatalogRequest.run st req)
    · intro body now hm
      exact hreqs body now (List.mem_cons_of_mem _ hm)
    · exact hstep.1
    · simp only [List.length_cons] at hlen
      omega
    · exact hstep.2

/-- C9 at the failing input: from the empty catalog, a body without `id` and then a body that
carries `id: 1` leave two stored products with the id 1. -/
theorem addproduct_body_id_duplicates :
    (runCatalog ⟨[], [], 0⟩
      [.addproduct ⟨none, some "a", some "a.png", some "men", some 5, some 6, none, none⟩ 1,
       .addproduct ⟨some 1, some "b", some "b.png", some "kid", some 7, some 8, none, none⟩ 2]
      ).products
      = [⟨1, "a", "a.png", "men", 5, 6, 1, true⟩, ⟨1, "b", "b.png", "kid", 7, 8, 2, true⟩] := by
  decide

/-! ## The claim on failures -/

theorem requiredString_eq_false (x : Option String) (h : x = none ∨ x = some "") :
    requiredString x = false := by
  rcases h with rfl | rfl <;> simp [requiredString]

/-- C10, as the code has it: the failures a handler tests for are answered with a JSON error
body and a status.  A request without `auth-token` header or with an empty one is answered
401 "Access Denied" and a request whose token fails verification 401 "Invalid Token", by the
guard; a signup with a stored email is answered 400 "User already exists"; a login with an
email that no stored user has, or with another password than the stored one, is answered 400
"Invalid Credentials"; `login`, `newCollections` and `removeproduct` always answer.  The
failures no handler tests for are thrown out of the handler, which has then written no
response: `addToCart` throws a `TypeError` when the verified identity is the key of no stored
user, and `signup` and `addproduct` throw the `ValidationError` of `save()` when a required
field is missing or empty, or the date of the product is out of range. -/
theorem failures_at_request_boundary (ts : TokenService) (st : Store) (now : Nat) :
    (∀ itemId, addToCartRoute ts st none itemId now = .ok (st, ⟨401, .error "Access Denied"⟩)
        ∧ addToCartRoute ts st (some "") itemId now
          = .ok (st, ⟨401, .error "Access Denied"⟩))
    ∧ (∀ token itemId, token ≠ "" → ts.verify token now = none →
        addToCartRoute ts st (some token) itemId now
          = .ok (st, ⟨401, .error "Invalid Token"⟩))
    ∧ (∀ body : SignupBody, (∃ u ∈ st.users, some u.email = body.email) →
        signup ts st body now = .ok (st, ⟨400, .failure "User already exists"⟩))
    ∧ (∀ body : LoginBody, (∀ v ∈ st.users, some v.email ≠ body.email) →
        login ts st body now = .ok (st, ⟨400, .failure "Invalid Credentials"⟩))
    ∧ (∀ (body : LoginBody) (l₁ : List User) (u : User) (l₂ : List User),
        st.users = l₁ ++ u :: l₂ → (∀ v ∈ l₁, some v.email ≠ body.email) →
        some u.email = body.email → body.password ≠ some u.password →
        login ts st body now = .ok (st, ⟨400, .failure "Invalid Credentials"⟩))
    ∧ (∀ body : LoginBody, ∃ r, login ts st body now = .ok (st, r))
    ∧ (∃ r, newCollections st = .ok (st, r))
    ∧ (∀ id, ∃ st' r, removeproduct st id = .ok (st', r))
    ∧ (∀ token itemId user, token ≠ "" → ts.verify token now = some user →
        (∀ v ∈ st.users, v.id ≠ user.id) →
        addToCartRoute ts st (some token) itemId now
          = .error (.typeError "Cannot read properties of null (reading 'cartData')"))
    ∧ (∀ body : SignupBody, (∀ u ∈ st.users, some u.email ≠ body.email) →
        (body.username = none ∨ body.username = some "" ∨ body.email = none
          ∨ body.email = some "" ∨ body.password = none ∨ body.password = some "") →
        ∃ paths, paths ≠ ∅ ∧ signup ts st body now = .error (.validationError paths))
    ∧ (∀ body : ProductBody,
        (body.name = none ∨ body.name = some "" ∨ body.image = none ∨ body.image = some ""
          ∨ body.category = none ∨ body.category = some "" ∨ body.new_price = none
          ∨ body.old_price = none ∨ ∃ d, body.date = some d ∧ 8640000000000000 < d.natAbs) →
        ∃ paths, paths ≠ ∅ ∧ addproduct st body now = .error (.validationError paths)) := by
  refine ⟨?_, ?_, ?_, ?_, ?_, ?_, ⟨_, rfl⟩, fun id => ⟨_, _, rfl⟩, ?_, ?_, ?_⟩
  · intro itemId
    exact ⟨by simp [addToCartRoute, fetchUser], by simp [addToCartRoute, fetchUser, noToken]⟩
  · intro token itemId ht hv
    simp [addToCartRoute, fetchUser, noToken, ht, hv]
  · rintro body ⟨u, hu, he⟩
    cases hf : findOneByEmail st.users body.email with
    | none => exact absurd he ((findOneByEmail_eq_none _ _).1 hf u hu)
    | some w => exact signup_of_found ts st body now w hf
  · intro body hnone
    simp [login, (findOneByEmail_eq_none _ _).2 hnone]
  · intro body l₁ u l₂ hl hne hu hp
    have hf := (findOneByEmail_eq_some st.users body.email u).2 ⟨l₁, l₂, hl, hne, hu⟩
    simp [login, hf, hp]
  · intro body
    cases hf : findOneByEmail st.users body.email with
    | none => exact ⟨⟨400, .failure "Invalid Credentials"⟩, by simp [login, hf]⟩
    | some u =>
      by_cases hp : body.password = some u.password
      · exact ⟨⟨200, .token (ts.sign ⟨u.id⟩ now)⟩, by simp [login, hf, hp]⟩
      · exact ⟨⟨400, .failure "Invalid Credentials"⟩, by simp [login, hf, hp]⟩
  · intro token itemId user ht hv hnone
    have hf := (findById_eq_none st.users user.id).2 hnone
    simp [addToCartRoute, fetchUser_of_verified ts token now user ht hv, addToCart, hf]
  · intro body hnew hbad
    have hinv : ¬ (requiredString body.username = true ∧ requiredString body.email = true
        ∧ requiredString body.password = true) := by
      rintro ⟨h1, h2, h3⟩
      rcases hbad with h | h | h | h | h | h
      · rw [requiredString_eq_false _ (Or.inl h)] at h1
        cases h1
      · rw [requiredString_eq_false _ (Or.inr h)] at h1
        cases h1
      · rw [requiredString_eq_false _ (Or.inl h)] at h2
        cases h2
      · rw [requiredString_eq_false _ (Or.inr h)] at h2
        cases h2
      · rw [requiredString_eq_false _ (Or.inl h)] at h3
        cases h3
      · rw [requiredString_eq_false _ (Or.inr h)] at h3
        cases h3
    refine ⟨userErrors body, fun h => hinv ((userErrors_eq_empty body).1 h), ?_⟩
    rw [signup_of_fresh ts st body now ((findOneByEmail_eq_none _ _).2 hnew),
      newUser_error st.nextOid body initialCart now hinv]
    rfl
  · intro body hbad
    have hne : productErrors body ≠ ∅ := by
      intro h
      obtain ⟨h1, h2, h3, h4, h5, h6⟩ := (productErrors_eq_empty body).1 h
      rcases hbad with h | h | h | h | h | h | h | h | ⟨d, h, hd⟩
      · rw [requiredString_eq_false _ (Or.inl h)] at h1
        cases h1
      · rw [requiredString_eq_false _ (Or.inr h)] at h1
        cases h1
      · rw [requiredString_eq_false _ (Or.inl h)] at h2
        cases h2
      · rw [requiredString_eq_false _ (Or.inr h)] at h2
        cases h2
      · rw [requiredString_eq_false _ (Or.inl h)] at h3
        cases h3
      · rw [requiredString_eq_false _ (Or.inr h)] at h3
        cases h3
      · rw [h] at h4
        cases h4
      · rw [h] at h5
        cases h5
      · rw [h] at h6
        simp only [castDate, decide_eq_true_eq] at h6
        omega
    refine ⟨productErrors body, hne, ?_⟩
    rw [addproduct_eq, newProduct_error _ body now hne]
    rfl

/-- Counterexample to C10 as stated: a verified token of an identity with no stored user makes
the `addToCart` handler throw a `TypeError`; a signup without `username` and an `addproduct`
without prices make `save()` throw; none of the three handlers writes a response. -/
theorem uncaught_failures :
    fetchUser demoTokens (some "xxx") 0 = .next ⟨2⟩
    ∧ addToCartRoute demoTokens ⟨[], [], 0⟩ (some "xxx") "5" 0
        = .error (.typeError "Cannot read properties of null (reading 'cartData')")
    ∧ signup demoTokens ⟨[], [], 0⟩ ⟨none, some "ann@shop.it", some "pw"⟩ 0
        = .error (.validationError {"name"})
    ∧ addproduct ⟨[], [], 0⟩ ⟨none, some "a", some "a.png", some "men", none, none, none, none⟩ 0
        = .error (.validationError {"new_price", "old_price"}) := by
  exact ⟨by decide, by decide, by decide, by decide⟩

end ShopIt
